import Mathlib

/-!
Verification of `dep-tools` (`src/dep_tools/Processor.py`) against its
natural-language specification.

The development shallowly embeds the parts of `Processor.py` that the claims
are about:

* `get_path` — the Output Path Resolver (`Processor.get_path`);
* `process_by_scene` — the Scene Processing Pipeline loop, with external
  collaborators (scene search, stack construction, cloud masking, the
  user-supplied transform) as oracle parameters, state passed explicitly;
* `splitResults` / `writeItems` — the dimensional-decomposition logic
  (splitting by year and/or variable, flattening);
* `mosaic_scenes` / `build_vrt` — the Mosaic Builder;
* `create_tiles` — the Tile Pyramid Generator, as a trace of local-disk /
  uploaded states;
* `scale_to_int16` and `write_to_blob_storage` — these live in
  `dep_tools/utils.py`, which is not part of the sources; they are modelled
  from the spec, as marked on their doc comments.

Python strings are modelled as Lean `String`; Python `str` on integers is
modelled by `intStr` below (proved injective).  xarray values are modelled
structurally: dimension names and coordinate labels are carried, pixel data
is not (the one pixel-level claim, quantization, is settled on the pixel
function `scale_to_int16` directly).
-/

/-- Python `str` of a natural number, digit characters most significant first.
Implemented with fuel so that it reduces definitionally; `natStrAux_eq_digits`
relates it to `Nat.digits`. -/
def natStrAux : ℕ → ℕ → List Char
  | 0, _ => []
  | fuel + 1, n => if n = 0 then [] else natStrAux fuel (n / 10) ++ [Nat.digitChar (n % 10)]

/-- Python `str(n)` for a natural number `n`. -/
def natStr (n : ℕ) : String := if n = 0 then "0" else ⟨natStrAux (n + 1) n⟩

/-- Python `str(i)` for an integer `i` (a minus sign followed by the digits of
the absolute value when negative). -/
def intStr (i : ℤ) : String := if i < 0 then "-" ++ natStr i.natAbs else natStr i.toNat

/-- A tile identifier: the components of the pandas (multi-)index of
`aoi_by_tile`, e.g. `[PATH, ROW]`. -/
abbrev TileIndex := List ℤ

/-- The configuration fields of the `Processor` dataclass that the modelled
code reads (collaborator handles such as the container client are part of
`Collab` below; defaults follow the dataclass). -/
structure ProcCfg where
  dataset_id : String
  year : Option String := none
  overwrite : Bool := false
  split_output_by_year : Bool := false
  split_output_by_variable : Bool := false
  scale_and_offset : Bool := true
  send_area_to_scene_processor : Bool := false
  convert_output_to_int16 : Bool := true
  output_value_multiplier : ℤ := 10000
  output_nodata : ℤ := -32767
  container_name : String := "output"
  deriving DecidableEq

/-- Embeds `Processor.get_path`: defaults the variable (named `varName` here,
`variable` being a Lean keyword) to the dataset id and the year to the
configured year, joins the index components with underscores, and formats the
two path shapes. -/
def get_path (self : ProcCfg) (index : TileIndex) (year : Option String := none)
    (varName : Option String := none) : String :=
  let varName := match varName with
    | none => self.dataset_id
    | some v => v
  let year := match year with
    | none => self.year
    | some y => some y
  let suffix := String.intercalate "_" (index.map intStr)
  match year with
  | some y => self.dataset_id ++ "/" ++ y ++ "/" ++ varName ++ "_" ++ y ++ "_" ++ suffix ++ ".tif"
  | none => self.dataset_id ++ "/" ++ varName ++ "_" ++ suffix ++ ".tif"

/-- Decidable equality for `Except`, so that runs of the embedded code can be
checked on concrete inputs. -/
instance {ε α : Type} [DecidableEq ε] [DecidableEq α] : DecidableEq (Except ε α) := fun
  | Except.error e, Except.error f =>
    match decEq e f with
    | isTrue h => isTrue (h ▸ rfl)
    | isFalse h => isFalse (fun hh => h (Except.error.inj hh))
  | Except.error _, Except.ok _ => isFalse Except.noConfusion
  | Except.ok _, Except.error _ => isFalse Except.noConfusion
  | Except.ok a, Except.ok b =>
    match decEq a b with
    | isTrue h => isTrue (h ▸ rfl)
    | isFalse h => isFalse (fun hh => h (Except.ok.inj hh))

/-- Python exceptions the modelled code can raise. -/
inductive PyError
  | typeError
  | keyError
  | valueError
  | ioError
  deriving DecidableEq

/-- A value stored in the `scene_processor_kwargs` dict: either a
caller-supplied value (abstracted by a token) or the `area` GeoDataFrame for
a tile (`self.aoi_by_tile.loc[[index]]`, determined by the tile index). -/
inductive KwVal
  | user (token : ℤ)
  | area (index : TileIndex)
  deriving DecidableEq

/-- The `scene_processor_kwargs` dict, as an insertion-ordered association
list of keys and values. -/
abbrev Kwargs := List (String × KwVal)

/-- Python dict lookup on the `Kwargs` model. -/
def dictLookup : Kwargs → String → Option KwVal
  | [], _ => none
  | (k, v) :: rest, key => if k = key then some v else dictLookup rest key

/-- Python `dict.update({key: v})`: replaces the value in place when the key
is present (keeping its position), otherwise appends the new entry. -/
def dictUpdate (kw : Kwargs) (key : String) (v : KwVal) : Kwargs :=
  if (dictLookup kw key).isSome then
    kw.map (fun p => if p.1 = key then (key, v) else p)
  else
    kw ++ [(key, v)]

/-- Structural model of the user transform's result: an xarray `Dataset`
whose dimensions are drawn from time, y, x plus the data variables.
`times = some ts` means the dataset has a `time` dimension with coordinate
labels `ts`; `vars` are the data variable names.  Pixel data is not carried:
the pipeline-level claims are about dimensions, labels, paths and writes
(the pixel-level quantization step is modelled separately by
`scale_to_int16`, which changes no dimension or coordinate). -/
structure XResult where
  times : Option (List String)
  vars : List String
  deriving DecidableEq

/-- Number of keys of `results.dims` for an `XResult` (the spatial y and x
dimensions plus the time dimension when present). -/
def XResult.ndims (r : XResult) : ℕ :=
  2 + (if r.times.isSome then 1 else 0)

/-- One element of the Python list that `results` becomes after the optional
splitting steps: an xarray slice with optional scalar `time` / `variable`
coordinates (left by `.sel`), an optional remaining `time` dimension, and,
when it is still a `Dataset` rather than a `DataArray`, its data variables. -/
structure XPiece where
  timeCoord : Option String
  varCoord : Option String
  timesDim : Option (List String)
  varsDim : Option (List String)
  deriving DecidableEq

/-- The dynamic type of the `results` local variable after the splitting
steps of `process_by_scene`: still a whole dataset, or a Python list. -/
inductive ResultsVal
  | ds (r : XResult)
  | list (pieces : List XPiece)
  deriving DecidableEq

/-- Embeds lines 160–177 of `Processor.py`: `results.sel(time=year)` for each
time label when `split_output_by_year` is set (raising `KeyError` when there
is no `time` coordinate), then `result.to_array().sel(variable=var)` per data
variable when `split_output_by_variable` is set. -/
def splitResults (split_output_by_year split_output_by_variable : Bool) (r : XResult) :
    Except PyError ResultsVal :=
  match (if split_output_by_year then
           match r.times with
           | none => Except.error PyError.keyError
           | some ts =>
             Except.ok (ResultsVal.list (ts.map fun t => ⟨some t, none, none, some r.vars⟩))
         else Except.ok (ResultsVal.ds r) : Except PyError ResultsVal) with
  | Except.error e => Except.error e
  | Except.ok rv =>
    if split_output_by_variable then
      match rv with
      | ResultsVal.list pieces =>
        Except.ok (ResultsVal.list (pieces.flatMap fun p =>
          (p.varsDim.getD []).map fun v => ⟨p.timeCoord, some v, p.timesDim, none⟩))
      | ResultsVal.ds r =>
        Except.ok (ResultsVal.list (r.vars.map fun v => ⟨none, some v, r.times, none⟩))
    else Except.ok rv

/-- Embeds lines 205–216 of `Processor.py`: `to_array(dim="variables")`,
`stack(z=["time", "variables"])`, `to_dataset(dim="z")` and the
`"_".join(name)` renaming — one 2-D layer per (time, variable) pair, named
by concatenating the time and variable labels. -/
def flattenResult (r : XResult) : XResult :=
  { times := none
    vars := (r.times.getD []).flatMap fun t => r.vars.map fun v => t ++ "_" ++ v }

/-- The repr a Python f-string produces for a list of strings (`.tolist()` of
a non-scalar coordinate ends up formatted into the path this way). -/
def pyListRepr (ts : List String) : String :=
  let q := String.singleton (Char.ofNat 39)
  "[" ++ String.intercalate ", " (ts.map fun t => q ++ t ++ q) ++ "]"

/-- One output artifact handed to `write_to_blob_storage`: a list slice or
the whole (possibly flattened, then squeezed) dataset. -/
inductive Artifact
  | piece (p : XPiece)
  | whole (r : XResult)
  deriving DecidableEq

/-- An artifact is strictly 2-D when no time dimension (and for a slice, no
data-variable axis) remains beyond y and x. -/
def Artifact.is2D : Artifact → Bool
  | Artifact.piece p => p.timesDim.isNone && p.varsDim.isNone
  | Artifact.whole r => r.times.isNone

/-- Embeds lines 179–223 of `Processor.py`: for a list, one write per slice
at `get_path(index, time, variable)` with the scalar coordinates (a remaining
`time` dimension is passed as its `.tolist()` repr); otherwise one write of
the whole dataset at `get_path(index)`, flattened first when it has more
than two dimensions (`.squeeze()` drops nothing the structural model keeps). -/
def writeItems (cfg : ProcCfg) (index : TileIndex) (rv : ResultsVal) :
    List (String × Artifact) :=
  match rv with
  | ResultsVal.list pieces =>
    pieces.map fun p =>
      let time := match p.timeCoord with
        | some t => some t
        | none => p.timesDim.map pyListRepr
      (get_path cfg index time p.varCoord, Artifact.piece p)
  | ResultsVal.ds r =>
    let r := if r.ndims > 2 then flattenResult r else r
    [(get_path cfg index, Artifact.whole r)]

/-- Blob storage contents: newest entry for a path first. -/
abbrev Storage := List (String × Artifact)

/-- Lookup of a blob by path (first, i.e. newest, entry wins). -/
def blobLookup : Storage → String → Option Artifact
  | [], _ => none
  | (q, a) :: rest, p => if q = p then some a else blobLookup rest p

/-- Modelled from the spec: `write_to_blob_storage` lives in
`dep_tools/utils.py`, which is not among the sources.  Per the spec it
honours the overwrite flag — "when false, an existing destination is left
untouched and the write is a no-op" — and otherwise uploads the artifact
(the new entry shadows any previous one). -/
def write_to_blob_storage (st : Storage) (path : String) (a : Artifact)
    (overwrite : Bool) : Storage :=
  if overwrite = false ∧ (blobLookup st path).isSome then st
  else (path, a) :: st

/-- Opaque token for the lazily-evaluated image stack handed to the
transform. -/
abbrev Stack := ℕ

/-- Opaque token for one scene reference in an item collection. -/
abbrev Scene := ℕ

/-- The external collaborators of `process_by_scene`, all out of scope per
the spec: the scene search (`item_collection_for_pathrow`), stack
construction (`stack`/`rioxarray` inside `get_stack`, which can raise),
cloud masking (`mask_clouds`), radiometric rescaling (`scale_and_offset`
from `utils.py`) and the user-supplied transform (`scene_processor`, which
can raise or decline to produce a result). -/
structure Collab where
  item_collection_for_pathrow : TileIndex → List Scene
  get_stack : List Scene → TileIndex → Except PyError Stack
  mask_clouds : Stack → Stack
  scale_and_offset_fn : Stack → Stack
  scene_processor : Stack → Kwargs → Except PyError (Option XResult)

/-- The masked (and, when `scale_and_offset` is set, rescaled) stack of
lines 135–143 of `Processor.py`. -/
def maskedStack (cfg : ProcCfg) (c : Collab) (s : Stack) : Stack :=
  let item_xr := c.mask_clouds s
  if cfg.scale_and_offset then c.scale_and_offset_fn item_xr else item_xr

/-- The kwargs the transform is invoked with (lines 145–147): when
`send_area_to_scene_processor` is set, `scene_processor_kwargs` is first
mutated in place by `dict.update`, inserting the tile's area. -/
def tileKwargs (cfg : ProcCfg) (kw : Kwargs) (index : TileIndex) : Kwargs :=
  if cfg.send_area_to_scene_processor then dictUpdate kw "area" (KwVal.area index) else kw

/-- What one iteration of the `process_by_scene` loop does, before its
effects are applied to the processor state: the kwargs dict afterwards, the
kwargs of the transform invocation (empty list when the transform was never
reached), the `(path, artifact)` writes, and the exception, if any,
propagating out of the iteration.  `convert_output_to_int16` applies
`scale_to_int16`, which rescales pixel values only; every structural field
modelled here is unchanged by it. -/
structure TileRun where
  kwargs : Kwargs
  calls : List Kwargs
  items : List (String × Artifact)
  err : Option PyError
  deriving DecidableEq

/-- Embeds the body of the `process_by_scene` loop (lines 112–223):
empty scene search → skip; stack build may raise; kwargs update; transform
invocation may raise or return `None` → skip; split and write. -/
def tileRun (cfg : ProcCfg) (c : Collab) (index : TileIndex) (kw : Kwargs) : TileRun :=
  let item_collection := c.item_collection_for_pathrow index
  if item_collection.length = 0 then ⟨kw, [], [], none⟩
  else
    match c.get_stack item_collection index with
    | Except.error e => ⟨kw, [], [], some e⟩
    | Except.ok s0 =>
      let item_xr := maskedStack cfg c s0
      let kw := tileKwargs cfg kw index
      match c.scene_processor item_xr kw with
      | Except.error e => ⟨kw, [kw], [], some e⟩
      | Except.ok none => ⟨kw, [kw], [], none⟩
      | Except.ok (some results) =>
        match splitResults cfg.split_output_by_year cfg.split_output_by_variable results with
        | Except.error e => ⟨kw, [kw], [], some e⟩
        | Except.ok rv => ⟨kw, [kw], writeItems cfg index rv, none⟩

/-- The mutable state a run of the pipeline threads along: the processor's
`scene_processor_kwargs` dict (a Python object surviving across tiles and
across calls), the blob storage, and the log of transform invocations. -/
structure PState where
  kwargs : Kwargs
  storage : Storage
  calls : List Kwargs
  deriving DecidableEq

/-- One iteration of the `process_by_scene` loop applied to the processor
state: performs the iteration's writes through `write_to_blob_storage` with
the configured overwrite flag and returns the exception, if any. -/
def processTile (cfg : ProcCfg) (c : Collab) (index : TileIndex) (st : PState) :
    PState × Option PyError :=
  let tr := tileRun cfg c index st.kwargs
  ({ kwargs := tr.kwargs
     calls := st.calls ++ tr.calls
     storage := tr.items.foldl
       (fun s pa => write_to_blob_storage s pa.1 pa.2 cfg.overwrite) st.storage },
   tr.err)

/-- Embeds `Processor.process_by_scene`: iterates the tiles of
`aoi_by_tile` in order.  The loop body has no exception handler, so an
exception raised while processing a tile propagates immediately, ending the
iteration; the writes already performed persist. -/
def process_by_scene (cfg : ProcCfg) (c : Collab) :
    List TileIndex → PState → PState × Option PyError
  | [], st => (st, none)
  | index :: rest, st =>
    match processTile cfg c index st with
    | (st', none) => process_by_scene cfg c rest st'
    | (st', some e) => (st', some e)

/-- A floating-point pixel value: NaN or a finite value (modelled as a
rational). -/
inductive FloatVal
  | nan
  | val (q : ℚ)
  deriving DecidableEq

/-- Cast of an integer to a signed 16-bit integer (numpy `astype("int16")`
wraps modulo 2^16). -/
def toInt16 (r : ℤ) : ℤ := (r + 2 ^ 15) % 2 ^ 16 - 2 ^ 15

/-- Modelled from the spec: `scale_to_int16` lives in `dep_tools/utils.py`,
which is not among the sources.  Per the spec (§4.2 step 6) it scales a
floating value by the multiplier, rounds, casts to a signed 16-bit integer,
and maps any input NaN or nodata value, or any resulting value colliding
with the nodata sentinel, to that sentinel.  This is its action on one
pixel, given the input nodata value of the stack. -/
def scale_to_int16 (output_multiplier : ℤ) (output_nodata : ℤ)
    (input_nodata : Option ℚ) (v : FloatVal) : ℤ :=
  match v with
  | FloatVal.nan => output_nodata
  | FloatVal.val q =>
    if some q = input_nodata then output_nodata
    else
      let r := toInt16 (round (q * (output_multiplier : ℚ)))
      if r = output_nodata then output_nodata else r

/-- Embeds `Processor.build_vrt` (lines 245–254): lists the container's
blobs, keeps those whose name starts with `self.prefix`, and hands their
`/vsiaz/` URLs (with the requested output bounds) to `gdal.BuildVRT`, an
external collaborator that only references the rasters without copying
data.  Returns the URL list the VRT is built over. -/
def build_vrt (container_name : String) (container_blobs : List String)
    (prefixStr : String) (bounds : List ℚ) : List String :=
  (container_blobs.filter fun b => prefixStr.isPrefixOf b).map
    fun b => "/vsiaz/" ++ container_name ++ "/" ++ b

/-- Outcome of `mosaic_scenes` when it returns normally. -/
inductive MosaicResult
  | skipped
  deriving DecidableEq

/-- Embeds `Processor.mosaic_scenes` (lines 256–269).  When the destination
mosaic file does not exist or `overwrite` is true, the source executes
`vrt_file = self.build_vrt()` — but `build_vrt` has a required positional
parameter `bounds`, so this zero-argument call raises `TypeError` before
anything is built.  Otherwise nothing is done. -/
def mosaic_scenes (mosaicIsFile : Bool) (scale_factor : Option ℚ)
    (overwrite : Bool := true) : Except PyError MosaicResult :=
  if ¬ mosaicIsFile ∨ overwrite then Except.error PyError.typeError
  else Except.ok MosaicResult.skipped

/-- The `self.prefix` computed in `__post_init__` (line 83–87), as path
components: `{dataset_id}/{year}/{dataset_id}_{year}` when the year is
truthy, else `{dataset_id}/{dataset_id}`. -/
def prefixParts (cfg : ProcCfg) : List String :=
  match cfg.year with
  | some y => if y = "" then [cfg.dataset_id, cfg.dataset_id]
              else [cfg.dataset_id, y, cfg.dataset_id ++ "_" ++ y]
  | none => [cfg.dataset_id, cfg.dataset_id]

/-- One rendered map tile at (zoom, x, y). -/
structure TileNode where
  z : ℕ
  x : ℕ
  y : ℕ
  deriving DecidableEq

/-- The local scratch path of a rendered tile, as path components:
`data/tiles/{self.prefix}/{z}/{x}/{y}.png`. -/
def localParts (cfg : ProcCfg) (n : TileNode) : List String :=
  ["data", "tiles"] ++ prefixParts cfg ++ [natStr n.z, natStr n.x, natStr n.y ++ ".png"]

/-- The remote path a tile file is uploaded to (line 302):
`Path("tiles") / "/".join(local_path.parts[4:])`. -/
def remoteParts (localPath : List String) : List String :=
  "tiles" :: localPath.drop 4

/-- The tile files `gdal2tiles.main` renders with `--zoom=0-{maxZoom}`:
for each zoom level `z ≤ maxZoom`, the (x, y) tiles the raster's extent
covers at that level (an oracle `render`, since rendering is external). -/
def renderedNodes (render : ℕ → List (ℕ × ℕ)) (maxZoom : ℕ) : List TileNode :=
  (List.range (maxZoom + 1)).flatMap fun z => (render z).map fun p => ⟨z, p.1, p.2⟩

/-- A snapshot of the Tile Pyramid Generator's world: tile files currently
in local scratch, and remote paths uploaded so far. -/
structure TPState where
  localFiles : List (List String)
  uploaded : List (List String)
  deriving DecidableEq

/-- The per-file loop of `create_tiles` (lines 300–304): upload the file to
its remote path, then `local_path.unlink()`.  Returns the snapshot after
each file. -/
def uploadSteps (st : TPState) : List (List String) → List TPState
  | [] => []
  | f :: rest =>
    let st' : TPState :=
      { localFiles := st.localFiles.erase f, uploaded := st.uploaded ++ [remoteParts f] }
    st' :: uploadSteps st' rest

/-- Embeds `Processor.create_tiles` (lines 271–304) as the sequence of
world snapshots: when `remake_mosaic` is set it first calls
`self.mosaic_scenes(scale_factor=1.0/1000, overwrite=True)`, which raises
(see `mosaic_scenes`).  Otherwise `gdal.DEMProcessing` derives the
color-relief raster (external, value-level) and `gdal2tiles.main` renders
the full pyramid for zoom levels 0 through 11 into local scratch — the
first snapshot — after which each file is uploaded and deleted in turn. -/
def create_tiles (cfg : ProcCfg) (render : ℕ → List (ℕ × ℕ))
    (remake_mosaic : Bool) (mosaicIsFile : Bool) : Except PyError (List TPState) :=
  if remake_mosaic then
    match mosaic_scenes mosaicIsFile (some (1 / 1000)) true with
    | Except.error e => Except.error e
    | Except.ok _ => Except.ok []
  else
    let max_zoom := 11
    let files := (renderedNodes render max_zoom).map (localParts cfg)
    let st0 : TPState := { localFiles := files, uploaded := [] }
    Except.ok (st0 :: uploadSteps st0 files)

/-- The Output Path Resolver's contract as the spec states it (§4.3):
variable defaults to the dataset id, year defaults to the configured year;
`{dataset}/{year}/{variable}_{year}_{tile-id-joined-by-underscore}.tif` when
a year is present, otherwise `{dataset}/{variable}_{tile-id}.tif`. -/
def spec_output_path (cfg : ProcCfg) (index : TileIndex) (year : Option String)
    (varName : Option String) : String :=
  let effVar := varName.getD cfg.dataset_id
  let effYear := match year with
    | some y => some y
    | none => cfg.year
  let tileId := String.intercalate "_" (index.map intStr)
  match effYear with
  | some y => cfg.dataset_id ++ "/" ++ y ++ "/" ++ effVar ++ "_" ++ y ++ "_" ++ tileId ++ ".tif"
  | none => cfg.dataset_id ++ "/" ++ effVar ++ "_" ++ tileId ++ ".tif"

/-- C5: for every dataset id, tile id, optional year and optional variable,
`get_path` returns `{dataset}/{year}/{variable}_{year}_{tile-id}.tif` when a
year is present and `{dataset}/{variable}_{tile-id}.tif` otherwise, the
variable defaulting to the dataset id and the year to the configured year. -/
theorem get_path_matches_spec_shape (cfg : ProcCfg) (index : TileIndex)
    (year varName : Option String) :
    get_path cfg index year varName = spec_output_path cfg index year varName := by
  cases year <;> cases varName <;> simp [get_path, spec_output_path]

/-- C8: whenever `mosaic_scenes` takes its rebuild branch (destination
missing, or overwrite true — the default), the zero-argument call
`self.build_vrt()` raises `TypeError`, because `build_vrt` requires a
`bounds` argument; no mosaic is ever built.  Only the skip branch
(destination exists, overwrite false) returns normally, doing nothing. -/
theorem mosaic_scenes_rebuild_raises :
    mosaic_scenes false none true = Except.error PyError.typeError ∧
    mosaic_scenes false none false = Except.error PyError.typeError ∧
    mosaic_scenes true (some (1 / 1000)) true = Except.error PyError.typeError ∧
    mosaic_scenes true none false = Except.ok MosaicResult.skipped := by
  decide

/-- Length of a `flatMap` whose pieces all have the same length. -/
theorem length_flatMap_const {α β : Type} (l : List α) (f : α → List β) (n : ℕ)
    (h : ∀ a ∈ l, (f a).length = n) : (l.flatMap f).length = l.length * n := by
  induction l with
  | nil => simp
  | cons a l ih =>
    simp only [List.flatMap_cons, List.length_append, List.length_cons]
    rw [h a (List.mem_cons_self a l), ih fun b hb => h b (List.mem_cons_of_mem a hb)]
    ring

/-- C2: with both split flags set and a result carrying both a time and a
variable dimension, the pipeline produces exactly `#time × #variable`
strictly 2-D artifacts; with neither flag set and more than two dimensions,
one flattened dataset is written whose per-layer variable names concatenate
the time and variable labels, so every written artifact is 2-D. -/
theorem dimensional_decomposition (cfg : ProcCfg) (index : TileIndex) (r : XResult)
    (ts : List String) (h : r.times = some ts) :
    (∃ pieces,
      splitResults true true r = Except.ok (ResultsVal.list pieces) ∧
      (writeItems cfg index (ResultsVal.list pieces)).length = ts.length * r.vars.length ∧
      ∀ pa ∈ writeItems cfg index (ResultsVal.list pieces), pa.2.is2D = true) ∧
    (r.ndims > 2 ∧
      splitResults false false r = Except.ok (ResultsVal.ds r) ∧
      writeItems cfg index (ResultsVal.ds r)
        = [(get_path cfg index, Artifact.whole (flattenResult r))] ∧
      (flattenResult r).vars = ts.flatMap (fun t => r.vars.map fun v => t ++ "_" ++ v) ∧
      Artifact.is2D (Artifact.whole (flattenResult r)) = true) := by
  constructor
  · refine ⟨(ts.map fun t => (⟨some t, none, none, some r.vars⟩ : XPiece)).flatMap
      fun p => (p.varsDim.getD []).map fun v => ⟨p.timeCoord, some v, p.timesDim, none⟩,
      ?_, ?_, ?_⟩
    · simp [splitResults, h]
    · rw [writeItems, List.length_map]
      rw [length_flatMap_const _ _ r.vars.length]
      · simp
      · intro p hp
        obtain ⟨t, _, rfl⟩ := List.mem_map.1 hp
        simp
    · intro pa hpa
      obtain ⟨p, hp, rfl⟩ := List.mem_map.1 hpa
      obtain ⟨p0, hp0, hp⟩ := List.mem_flatMap.1 hp
      obtain ⟨t, _, rfl⟩ := List.mem_map.1 hp0
      obtain ⟨v, _, rfl⟩ := List.mem_map.1 hp
      simp [Artifact.is2D]
  · refine ⟨by simp [XResult.ndims, h], by simp [splitResults], ?_, by simp [flattenResult, h], by simp [Artifact.is2D, flattenResult]⟩
    rw [writeItems]
    simp [XResult.ndims, h]

/-- An integer within the signed 16-bit range is unchanged by the cast. -/
theorem toInt16_eq_self (r : ℤ) (h1 : -(2 ^ 15) ≤ r) (h2 : r < 2 ^ 15) :
    toInt16 r = r := by
  unfold toInt16
  rw [Int.emod_eq_of_lt (by omega) (by omega)]
  omega

/-- C3: with quantization enabled with multiplier `m` and sentinel `s`, every
finite non-nodata value whose scaled rounding is representable decodes (by
dividing by `m`) to within `1/m` of the input; NaN and nodata inputs map
exactly to the sentinel, and a value whose quantization collides with the
sentinel maps to the sentinel. -/
theorem scale_to_int16_round_trip (m s : ℤ) (ind : Option ℚ) (hm : 1 ≤ m) :
    (∀ q : ℚ, some q ≠ ind →
      -(2 ^ 15) ≤ round (q * (m : ℚ)) → round (q * (m : ℚ)) < 2 ^ 15 →
      |((scale_to_int16 m s ind (FloatVal.val q) : ℚ)) / (m : ℚ) - q| ≤ 1 / (m : ℚ)) ∧
    scale_to_int16 m s ind FloatVal.nan = s ∧
    (∀ q : ℚ, some q = ind → scale_to_int16 m s ind (FloatVal.val q) = s) ∧
    (∀ q : ℚ, some q ≠ ind → toInt16 (round (q * (m : ℚ))) = s →
      scale_to_int16 m s ind (FloatVal.val q) = s) := by
  have hm0 : (0 : ℚ) < (m : ℚ) := by exact_mod_cast lt_of_lt_of_le Int.one_pos hm
  refine ⟨?_, rfl, ?_, ?_⟩
  · intro q hq h1 h2
    have hval : scale_to_int16 m s ind (FloatVal.val q) = round (q * (m : ℚ)) := by
      rw [scale_to_int16, if_neg hq]
      show (if toInt16 (round (q * (m : ℚ))) = s then s
            else toInt16 (round (q * (m : ℚ)))) = _
      rw [toInt16_eq_self _ h1 h2]
      split_ifs with hc <;> omega
    rw [hval]
    have hdist : |(round (q * (m : ℚ)) : ℚ) - q * (m : ℚ)| ≤ 1 / 2 := by
      rw [abs_sub_comm]; exact abs_sub_round _
    have hrw : (round (q * (m : ℚ)) : ℚ) / (m : ℚ) - q
        = ((round (q * (m : ℚ)) : ℚ) - q * (m : ℚ)) / (m : ℚ) := by
      field_simp; ring
    rw [hrw, abs_div, abs_of_pos hm0]
    calc |(round (q * (m : ℚ)) : ℚ) - q * (m : ℚ)| / (m : ℚ)
        ≤ (1 / 2) / (m : ℚ) := by gcongr
      _ ≤ 1 / (m : ℚ) := by gcongr <;> norm_num
  · intro q hq
    rw [scale_to_int16, if_pos hq]
  · intro q hq hcol
    rw [scale_to_int16, if_neg hq]
    show (if toInt16 (round (q * (m : ℚ))) = s then s
          else toInt16 (round (q * (m : ℚ)))) = s
    rw [hcol]
    simp

/-- Witness for C2 at a concrete two-year, two-variable result. -/
theorem dimensional_decomposition_witness :
    ∃ pieces,
      splitResults true true ⟨some ["2020", "2021"], ["a", "b"]⟩
        = Except.ok (ResultsVal.list pieces) ∧
      (writeItems { dataset_id := "ndvi", year := some "2020" } [12, 60]
        (ResultsVal.list pieces)).length = 4 := by
  obtain ⟨⟨pieces, h1, h2, _⟩, _⟩ :=
    dimensional_decomposition { dataset_id := "ndvi", year := some "2020" } [12, 60]
      ⟨some ["2020", "2021"], ["a", "b"]⟩ ["2020", "2021"] rfl
  exact ⟨pieces, h1, by simpa using h2⟩

/-- Witness for C3 at multiplier 10000, sentinel -32767, input value 1/2. -/
theorem scale_to_int16_round_trip_witness :
    |((scale_to_int16 10000 (-32767) (some 5) (FloatVal.val (1 / 2)) : ℤ) : ℚ)
        / ((10000 : ℤ) : ℚ) - 1 / 2| ≤ 1 / ((10000 : ℤ) : ℚ) ∧
    scale_to_int16 10000 (-32767) (some 5) FloatVal.nan = -32767 := by
  have h := scale_to_int16_round_trip 10000 (-32767) (some 5) (by norm_num)
  have hr : round ((1 / 2 : ℚ) * ((10000 : ℤ) : ℚ)) = 5000 := by
    norm_num [round_eq]
  exact ⟨h.1 (1 / 2) (by norm_num) (by rw [hr]; decide) (by rw [hr]; decide), h.2.1⟩

/-- Splitting a list at a separator character that occurs in neither left part
is unambiguous. -/
theorem append_sep_inj {α : Type} {c : α} :
    ∀ {a a' b b' : List α}, a ++ c :: b = a' ++ c :: b' → c ∉ a → c ∉ a' →
      a = a' ∧ b = b'
  | [], [], _, _, h, _, _ => ⟨rfl, (List.cons.inj h).2⟩
  | [], x :: xs, _, _, h, _, ha' => by
    obtain ⟨hx, -⟩ := List.cons.inj h
    exact absurd (hx ▸ List.mem_cons_self x xs) ha'
  | x :: xs, [], _, _, h, ha, _ => by
    obtain ⟨hx, -⟩ := List.cons.inj h
    exact absurd (hx ▸ List.mem_cons_self x xs) ha
  | x :: xs, y :: ys, b, b', h, ha, ha' => by
    obtain ⟨hx, hrest⟩ := List.cons.inj h
    obtain ⟨h1, h2⟩ := append_sep_inj hrest (fun hc => ha (List.mem_cons_of_mem x hc))
      (fun hc => ha' (List.mem_cons_of_mem y hc))
    exact ⟨by rw [hx, h1], h2⟩

/-- `natStrAux` with enough fuel produces the base-10 digits, most
significant first. -/
theorem natStrAux_eq_digits : ∀ (n fuel : ℕ), n < fuel →
    natStrAux fuel n = ((Nat.digits 10 n).map Nat.digitChar).reverse := by
  intro n
  induction n using Nat.strong_induction_on with
  | _ n ih =>
    intro fuel hf
    match fuel with
    | f + 1 =>
      by_cases hn : n = 0
      · subst hn; simp [natStrAux]
      · have hdiv : n / 10 < n := Nat.div_lt_self (Nat.pos_of_ne_zero hn) (by norm_num)
        rw [natStrAux, if_neg hn, ih (n / 10) hdiv f (by omega),
          Nat.digits_def' (by norm_num : (1 : ℕ) < 10) (Nat.pos_of_ne_zero hn)]
        simp

/-- The ten digit characters are pairwise distinct. -/
theorem digitChar_inj {a b : ℕ} (ha : a < 10) (hb : b < 10)
    (h : Nat.digitChar a = Nat.digitChar b) : a = b := by
  have key : ∀ x y : Fin 10, Nat.digitChar x.val = Nat.digitChar y.val → x = y := by decide
  have := key ⟨a, ha⟩ ⟨b, hb⟩ h
  exact Fin.mk.inj_iff.1 this

/-- Digit characters are never the separator characters of the Output Path
Resolver (underscore, slash) nor a minus sign. -/
theorem digitChar_not_sep {d : ℕ} (hd : d < 10) :
    Nat.digitChar d ≠ '_' ∧ Nat.digitChar d ≠ '/' ∧ Nat.digitChar d ≠ '-' := by
  have key : ∀ x : Fin 10,
      Nat.digitChar x.val ≠ '_' ∧ Nat.digitChar x.val ≠ '/' ∧ Nat.digitChar x.val ≠ '-' := by
    decide
  exact key ⟨d, hd⟩

/-- Mapping `Nat.digitChar` over lists of digits below 10 is injective. -/
theorem map_digitChar_inj : ∀ (l1 l2 : List ℕ), (∀ d ∈ l1, d < 10) → (∀ d ∈ l2, d < 10) →
    l1.map Nat.digitChar = l2.map Nat.digitChar → l1 = l2
  | [], [], _, _, _ => rfl
  | [], _ :: _, _, _, h => by simp at h
  | _ :: _, [], _, _, h => by simp at h
  | a :: l1, b :: l2, h1, h2, h => by
    simp only [List.map_cons, List.cons.injEq] at h
    rw [digitChar_inj (h1 a (List.mem_cons_self a l1)) (h2 b (List.mem_cons_self b l2)) h.1,
      map_digitChar_inj l1 l2 (fun d hd => h1 d (List.mem_cons_of_mem a hd))
        (fun d hd => h2 d (List.mem_cons_of_mem b hd)) h.2]

/-- The characters of `natStr n` are exactly the digit characters of the
base-10 digits of `n`, most significant first. -/
theorem natStr_data (n : ℕ) :
    (natStr n).data = if n = 0 then ['0']
      else ((Nat.digits 10 n).map Nat.digitChar).reverse := by
  rw [natStr]
  split_ifs with hn
  · rfl
  · exact natStrAux_eq_digits n (n + 1) (by omega)

/-- Every character of `natStr n` is a digit character. -/
theorem natStr_chars (n : ℕ) : ∀ c ∈ (natStr n).data, ∃ d, d < 10 ∧ c = Nat.digitChar d := by
  intro c hc
  rw [natStr_data] at hc
  split_ifs at hc with hn
  · refine ⟨0, by norm_num, ?_⟩
    simpa using hc
  · rw [List.mem_reverse, List.mem_map] at hc
    obtain ⟨d, hd, rfl⟩ := hc
    exact ⟨d, Nat.digits_lt_base (by norm_num) hd, rfl⟩

/-- `natStr` is injective. -/
theorem natStr_injective {m n : ℕ} (h : natStr m = natStr n) : m = n := by
  have hd : (natStr m).data = (natStr n).data := by rw [h]
  rw [natStr_data, natStr_data] at hd
  have digits_eq_of : ∀ k, ((Nat.digits 10 k).map Nat.digitChar).reverse = ['0'] → k = 0 := by
    intro k hk
    have hmap : (Nat.digits 10 k).map Nat.digitChar = ['0'] := by
      have := congrArg List.reverse hk
      simpa using this
    have hlen : (Nat.digits 10 k).length = 1 := by
      have := congrArg List.length hmap
      simpa using this
    obtain ⟨d, hdig⟩ := List.length_eq_one.1 hlen
    rw [hdig] at hmap
    simp only [List.map_cons, List.map_nil, List.cons.injEq, and_true] at hmap
    have hd10 : d < 10 := Nat.digits_lt_base (by norm_num)
      (by rw [hdig]; exact List.mem_cons_self d [])
    have hd0 : d = 0 := digitChar_inj hd10 (by norm_num) hmap
    have hof := Nat.ofDigits_digits 10 k
    rw [hdig, hd0] at hof
    simpa using hof.symm
  split_ifs at hd with hm hn hn
  · omega
  · exact absurd (digits_eq_of n hd.symm) hn
  · exact absurd (digits_eq_of m hd) hm
  · have := map_digitChar_inj (Nat.digits 10 m) (Nat.digits 10 n)
      (fun d hdm => Nat.digits_lt_base (by norm_num) hdm)
      (fun d hdn => Nat.digits_lt_base (by norm_num) hdn)
      (List.reverse_injective hd)
    calc m = Nat.ofDigits 10 (Nat.digits 10 m) := (Nat.ofDigits_digits 10 m).symm
      _ = Nat.ofDigits 10 (Nat.digits 10 n) := by rw [this]
      _ = n := Nat.ofDigits_digits 10 n

/-- `natStr` never contains a separator or sign character. -/
theorem natStr_no_sep (n : ℕ) :
    '_' ∉ (natStr n).data ∧ '/' ∉ (natStr n).data ∧ '-' ∉ (natStr n).data := by
  refine ⟨fun hc => ?_, fun hc => ?_, fun hc => ?_⟩
  · obtain ⟨d, hd, he⟩ := natStr_chars n _ hc
    exact (digitChar_not_sep hd).1 he.symm
  · obtain ⟨d, hd, he⟩ := natStr_chars n _ hc
    exact (digitChar_not_sep hd).2.1 he.symm
  · obtain ⟨d, hd, he⟩ := natStr_chars n _ hc
    exact (digitChar_not_sep hd).2.2 he.symm

/-- `intStr` never contains an underscore or a slash. -/
theorem intStr_no_sep (i : ℤ) : '_' ∉ (intStr i).data ∧ '/' ∉ (intStr i).data := by
  rw [intStr]
  split_ifs with h
  · constructor <;> intro hc <;> simp only [String.data_append] at hc
    · rcases List.mem_append.1 hc with hc | hc
      · simp at hc
      · exact (natStr_no_sep i.natAbs).1 hc
    · rcases List.mem_append.1 hc with hc | hc
      · simp at hc
      · exact (natStr_no_sep i.natAbs).2.1 hc
  · exact ⟨(natStr_no_sep i.toNat).1, (natStr_no_sep i.toNat).2.1⟩

/-- Python `str` is injective on integers. -/
theorem intStr_injective {i j : ℤ} (h : intStr i = intStr j) : i = j := by
  have hd : (intStr i).data = (intStr j).data := by rw [h]
  rw [intStr, intStr] at hd
  split_ifs at hd with hi hj hj
  · simp only [String.data_append] at hd
    have hnat : (natStr i.natAbs).data = (natStr j.natAbs).data := by
      simpa using hd
    have := natStr_injective (String.ext hnat)
    omega
  · exfalso
    have hmem : '-' ∈ (natStr j.toNat).data := by
      rw [← hd]
      simp [String.data_append]
    exact (natStr_no_sep j.toNat).2.2 hmem
  · exfalso
    have hmem : '-' ∈ (natStr i.toNat).data := by
      rw [hd]
      simp [String.data_append]
    exact (natStr_no_sep i.toNat).2.2 hmem
  · have := natStr_injective (String.ext hd)
    omega

/-- The character-level decomposition of a year-bearing resolver path. -/
theorem get_path_data (cfg : ProcCfg) (i j : ℤ) (y v : String) :
    (get_path cfg [i, j] (some y) (some v)).data
      = cfg.dataset_id.data ++ '/' :: (y.data ++ '/' :: (v.data ++ '_' :: (y.data
          ++ '_' :: ((intStr i).data ++ '_' :: ((intStr j).data ++ ".tif".data))))) := by
  simp [get_path, String.intercalate, String.intercalate.go, String.data_append,
    List.append_assoc]

/-- C4: the Output Path Resolver is injective: two (tile id, year, variable)
triples, with two-component integer tile ids as in the Area Grid and
slash-free years, produce the same path only when they are equal. -/
theorem get_path_injective (cfg : ProcCfg) (i1 i2 : ℤ × ℤ) (y1 y2 v1 v2 : String)
    (hy1 : '/' ∉ y1.data) (hy2 : '/' ∉ y2.data)
    (h : get_path cfg [i1.1, i1.2] (some y1) (some v1)
       = get_path cfg [i2.1, i2.2] (some y2) (some v2)) :
    i1 = i2 ∧ y1 = y2 ∧ v1 = v2 := by
  have hd := congrArg String.data h
  rw [get_path_data, get_path_data] at hd
  have h1 := List.append_cancel_left hd
  obtain ⟨-, h2⟩ := List.cons.inj h1
  obtain ⟨hy, h3⟩ := append_sep_inj h2 hy1 hy2
  have hyeq : y1 = y2 := String.ext hy
  have h4 := congrArg List.reverse h3
  simp only [List.reverse_append, List.reverse_cons, List.append_assoc,
    List.cons_append, List.nil_append, List.singleton_append] at h4
  obtain ⟨-, h4a⟩ := List.cons.inj h4
  obtain ⟨-, h4b⟩ := List.cons.inj h4a
  obtain ⟨-, h4c⟩ := List.cons.inj h4b
  obtain ⟨-, h5⟩ := List.cons.inj h4c
  have hB1 : '_' ∉ (intStr i1.2).data.reverse :=
    fun hc => (intStr_no_sep i1.2).1 (List.mem_reverse.1 hc)
  have hB2 : '_' ∉ (intStr i2.2).data.reverse :=
    fun hc => (intStr_no_sep i2.2).1 (List.mem_reverse.1 hc)
  obtain ⟨hBeq, h6⟩ := append_sep_inj h5 hB1 hB2
  have hi2 : i1.2 = i2.2 :=
    intStr_injective (String.ext (List.reverse_injective hBeq))
  have hA1 : '_' ∉ (intStr i1.1).data.reverse :=
    fun hc => (intStr_no_sep i1.1).1 (List.mem_reverse.1 hc)
  have hA2 : '_' ∉ (intStr i2.1).data.reverse :=
    fun hc => (intStr_no_sep i2.1).1 (List.mem_reverse.1 hc)
  obtain ⟨hAeq, h7⟩ := append_sep_inj h6 hA1 hA2
  have hi1 : i1.1 = i2.1 :=
    intStr_injective (String.ext (List.reverse_injective hAeq))
  rw [hyeq] at h7
  have h8 := List.append_cancel_left h7
  obtain ⟨-, h9⟩ := List.cons.inj h8
  have hveq : v1 = v2 := String.ext (List.reverse_injective h9)
  exact ⟨Prod.ext hi1 hi2, hyeq, hveq⟩

/-- Witness for C4 at a concrete triple (equal on both sides, so the path
equality hypothesis holds definitionally). -/
theorem get_path_injective_witness :
    ((12, 60) : ℤ × ℤ) = (12, 60) ∧ "2020" = "2020" ∧ "ndvi" = "ndvi" :=
  get_path_injective { dataset_id := "ndvi", year := some "2020" } (12, 60) (12, 60)
    "2020" "2020" "ndvi" "ndvi" (by decide) (by decide) rfl

/-- C7: a tile whose scene search returns an empty collection, and a tile
whose transform returns the no-result sentinel (`None`), is skipped: no
artifact is produced, the storage is unchanged, no error is raised, and the
pipeline continues with the remaining tiles. -/
theorem skipped_tiles_write_nothing (cfg : ProcCfg) (c : Collab) (t : TileIndex)
    (ts : List TileIndex) (st : PState) :
    (c.item_collection_for_pathrow t = [] →
      processTile cfg c t st = (st, none) ∧
      process_by_scene cfg c (t :: ts) st = process_by_scene cfg c ts st) ∧
    (∀ s0 : Stack, c.get_stack (c.item_collection_for_pathrow t) t = Except.ok s0 →
      c.scene_processor (maskedStack cfg c s0) (tileKwargs cfg st.kwargs t)
        = Except.ok none →
      (processTile cfg c t st).1.storage = st.storage ∧
      (processTile cfg c t st).2 = none ∧
      process_by_scene cfg c (t :: ts) st
        = process_by_scene cfg c ts (processTile cfg c t st).1) := by
  constructor
  · intro h
    have hrun : tileRun cfg c t st.kwargs = ⟨st.kwargs, [], [], none⟩ := by
      rw [tileRun]
      simp [h]
    have hpt : processTile cfg c t st = (st, none) := by
      simp [processTile, hrun]
    refine ⟨hpt, ?_⟩
    rw [process_by_scene, hpt]
  · intro s0 hst htr
    by_cases h0 : c.item_collection_for_pathrow t = []
    · have hrun : tileRun cfg c t st.kwargs = ⟨st.kwargs, [], [], none⟩ := by
        rw [tileRun]
        simp [h0]
      have hpt : processTile cfg c t st = (st, none) := by
        simp [processTile, hrun]
      refine ⟨by rw [hpt], by rw [hpt], ?_⟩
      rw [process_by_scene, hpt]
    · have hrun : tileRun cfg c t st.kwargs
          = ⟨tileKwargs cfg st.kwargs t, [tileKwargs cfg st.kwargs t], [], none⟩ := by
        rw [tileRun]
        simp [List.length_eq_zero, h0, hst, htr]
      have hpt : processTile cfg c t st
          = ({ kwargs := tileKwargs cfg st.kwargs t
               calls := st.calls ++ [tileKwargs cfg st.kwargs t]
               storage := st.storage }, none) := by
        simp [processTile, hrun]
      refine ⟨by rw [hpt], by rw [hpt], ?_⟩
      rw [process_by_scene, hpt]

/-- A concrete configuration for evaluating the pipeline. -/
def cfgA : ProcCfg := { dataset_id := "ndvi", year := some "2020" }

/-- A collaborator whose scene search finds nothing for any tile. -/
def collabEmpty : Collab :=
  { item_collection_for_pathrow := fun _ => []
    get_stack := fun _ _ => Except.ok 0
    mask_clouds := id
    scale_and_offset_fn := id
    scene_processor := fun _ _ => Except.ok (some ⟨none, ["ndvi"]⟩) }

/-- A collaborator whose transform always declines to produce a result. -/
def collabNoResult : Collab :=
  { item_collection_for_pathrow := fun _ => [7]
    get_stack := fun _ _ => Except.ok 0
    mask_clouds := id
    scale_and_offset_fn := id
    scene_processor := fun _ _ => Except.ok none }

/-- Witness for C7: an empty-search tile leaves the state untouched, and a
no-result tile leaves the storage untouched. -/
theorem skipped_tiles_write_nothing_witness :
    processTile cfgA collabEmpty [1, 2] ⟨[], [], []⟩ = (⟨[], [], []⟩, none) ∧
    (processTile cfgA collabNoResult [1, 2] ⟨[], [], []⟩).1.storage = [] := by
  refine ⟨((skipped_tiles_write_nothing cfgA collabEmpty [1, 2] [] ⟨[], [], []⟩).1 rfl).1, ?_⟩
  exact ((skipped_tiles_write_nothing cfgA collabNoResult [1, 2] [] ⟨[], [], []⟩).2 0 rfl rfl).1

/-- A collaborator whose transform raises on the stack of tile (1, 2) and
succeeds on every other tile. -/
def collabBoom : Collab :=
  { item_collection_for_pathrow := fun _ => [1]
    get_stack := fun _ index => Except.ok (if index = [1, 2] then 1 else 2)
    mask_clouds := id
    scale_and_offset_fn := id
    scene_processor := fun s _ =>
      if s = 1 then Except.error PyError.valueError else Except.ok (some ⟨none, ["ndvi"]⟩) }

/-- Counterexample to C1 as stated: with two tiles and a transform that
raises on the first, `process_by_scene` ends with the exception instead of
marking the tile `Failed` and continuing — nothing is written, and the
second tile, which alone would have produced a write, is never processed. -/
theorem pipeline_aborts_on_tile_failure :
    process_by_scene cfgA collabBoom [[1, 2], [3, 4]] ⟨[], [], []⟩
      = (⟨[], [], [[]]⟩, some PyError.valueError) ∧
    (process_by_scene cfgA collabBoom [[3, 4]] ⟨[], [], []⟩).1.storage ≠ [] := by
  decide

/-- C1 (as amended): an unhandled exception while processing a tile
propagates out of `process_by_scene` at once — the run aborts with that
exception and the remaining tiles are not processed (there is no exception
handler in the loop, no `Failed` marking, and no continuation). -/
theorem exception_aborts_run (cfg : ProcCfg) (c : Collab) (t : TileIndex)
    (ts : List TileIndex) (st st' : PState) (e : PyError)
    (h : processTile cfg c t st = (st', some e)) :
    process_by_scene cfg c (t :: ts) st = (st', some e) := by
  rw [process_by_scene, h]

/-- Witness for the amended C1 at a concrete failing tile. -/
theorem exception_aborts_run_witness :
    process_by_scene cfgA collabBoom [[1, 2], [9, 9]] ⟨[], [], []⟩
      = (⟨[], [], [[]]⟩, some PyError.valueError) :=
  exception_aborts_run cfgA collabBoom [1, 2] [[9, 9]] ⟨[], [], []⟩ ⟨[], [], [[]]⟩
    PyError.valueError (by decide)

/-- After `dict.update({key: v})` the key maps to `v`. -/
theorem dictLookup_update_self : ∀ (kw : Kwargs) (k : String) (v : KwVal),
    dictLookup (dictUpdate kw k v) k = some v := by
  intro kw k v
  induction kw with
  | nil => simp [dictUpdate, dictLookup]
  | cons p rest ih =>
    obtain ⟨a, b⟩ := p
    by_cases hak : a = k
    · subst hak
      simp [dictUpdate, dictLookup]
    · rw [dictUpdate]
      rw [dictUpdate] at ih
      simp only [dictLookup, if_neg hak]
      split_ifs with hsome
      · simp only [List.map_cons]
        rw [if_neg (by simpa using hak)]
        simp only [dictLookup, if_neg hak]
        rw [if_pos hsome] at ih
        exact ih
      · simp only [List.cons_append, dictLookup, if_neg hak]
        rw [if_neg hsome] at ih
        exact ih

/-- A key absent from the dict heads no entry. -/
theorem dictLookup_none_keys : ∀ (kw : Kwargs) (k : String),
    dictLookup kw k = none → ∀ p ∈ kw, p.1 ≠ k := by
  intro kw k h p hp
  induction kw with
  | nil => cases hp
  | cons q rest ih =>
    rw [dictLookup] at h
    split_ifs at h with hq
    rcases List.mem_cons.1 hp with rfl | hp'
    · exact hq
    · exact ih h hp'

/-- Updating the same key twice keeps only the last value. -/
theorem dictUpdate_collapse (kw : Kwargs) (k : String) (v v' : KwVal) :
    dictUpdate (dictUpdate kw k v) k v' = dictUpdate kw k v' := by
  have hsome : (dictLookup (dictUpdate kw k v) k).isSome := by
    rw [dictLookup_update_self]; rfl
  rw [dictUpdate, if_pos hsome, dictUpdate]
  split_ifs with h0
  · rw [dictUpdate, if_pos h0, List.map_map]
    apply List.map_congr_left
    intro p _
    by_cases hp : p.1 = k
    · simp [hp]
    · simp [hp]
  · rw [dictUpdate, if_neg h0, List.map_append]
    have hid : kw.map (fun p => if p.1 = k then (k, v') else p) = kw := by
      apply List.map_congr_left ?_ |>.trans (List.map_id kw)
      intro p hp
      rw [if_neg (dictLookup_none_keys kw k (Option.not_isSome_iff_eq_none.1 h0) p hp)]
      rfl
    rw [hid]
    simp

/-- Unfolding of `tileRun` when the scene search is empty. -/
theorem tileRun_eq_of_empty (cfg : ProcCfg) (c : Collab) (t : TileIndex) (kw : Kwargs)
    (h0 : c.item_collection_for_pathrow t = []) :
    tileRun cfg c t kw = ⟨kw, [], [], none⟩ := by
  rw [tileRun]
  simp [h0]

/-- Unfolding of `tileRun` when the stack build raises. -/
theorem tileRun_eq_of_stackError (cfg : ProcCfg) (c : Collab) (t : TileIndex) (kw : Kwargs)
    (e : PyError) (h0 : c.item_collection_for_pathrow t ≠ [])
    (hs : c.get_stack (c.item_collection_for_pathrow t) t = Except.error e) :
    tileRun cfg c t kw = ⟨kw, [], [], some e⟩ := by
  rw [tileRun, if_neg (by simpa [List.length_eq_zero] using h0), hs]

/-- Unfolding of `tileRun` when the stack build succeeds: the kwargs dict is
updated, the transform is invoked once with it, and the remaining branches
follow the transform's outcome. -/
theorem tileRun_eq_of_stack (cfg : ProcCfg) (c : Collab) (t : TileIndex) (kw : Kwargs)
    (s0 : Stack) (h0 : c.item_collection_for_pathrow t ≠ [])
    (hs : c.get_stack (c.item_collection_for_pathrow t) t = Except.ok s0) :
    tileRun cfg c t kw =
      match c.scene_processor (maskedStack cfg c s0) (tileKwargs cfg kw t) with
      | Except.error e => ⟨tileKwargs cfg kw t, [tileKwargs cfg kw t], [], some e⟩
      | Except.ok none => ⟨tileKwargs cfg kw t, [tileKwargs cfg kw t], [], none⟩
      | Except.ok (some results) =>
        match splitResults cfg.split_output_by_year cfg.split_output_by_variable results with
        | Except.error e => ⟨tileKwargs cfg kw t, [tileKwargs cfg kw t], [], some e⟩
        | Except.ok rv =>
          ⟨tileKwargs cfg kw t, [tileKwargs cfg kw t], writeItems cfg t rv, none⟩ := by
  rw [tileRun, if_neg (by simpa [List.length_eq_zero] using h0), hs]

/-- The kwargs dict after one loop iteration: unchanged when the iteration
stopped before the update (empty search, failed stack build), otherwise the
updated dict. -/
theorem tileRun_kwargs_cases (cfg : ProcCfg) (c : Collab) (t : TileIndex) (kw : Kwargs) :
    (tileRun cfg c t kw).kwargs = kw ∨
    (tileRun cfg c t kw).kwargs = tileKwargs cfg kw t := by
  by_cases h0 : c.item_collection_for_pathrow t = []
  · rw [tileRun_eq_of_empty cfg c t kw h0]
    exact Or.inl rfl
  · cases hg : c.get_stack (c.item_collection_for_pathrow t) t with
    | error e =>
      rw [tileRun_eq_of_stackError cfg c t kw e h0 hg]
      exact Or.inl rfl
    | ok s0 =>
      rw [tileRun_eq_of_stack cfg c t kw s0 h0 hg]
      right
      split
      · rfl
      · rfl
      · split
        · rfl
        · rfl

/-- Every transform invocation of one iteration is called with the updated
kwargs dict. -/
theorem tileRun_calls_eq (cfg : ProcCfg) (c : Collab) (t : TileIndex) (kw : Kwargs) :
    ∀ k ∈ (tileRun cfg c t kw).calls, k = tileKwargs cfg kw t := by
  intro k hk
  by_cases h0 : c.item_collection_for_pathrow t = []
  · rw [tileRun_eq_of_empty cfg c t kw h0] at hk
    cases hk
  · cases hg : c.get_stack (c.item_collection_for_pathrow t) t with
    | error e =>
      rw [tileRun_eq_of_stackError cfg c t kw e h0 hg] at hk
      cases hk
    | ok s0 =>
      rw [tileRun_eq_of_stack cfg c t kw s0 h0 hg] at hk
      split at hk
      · simpa using hk
      · simpa using hk
      · split at hk
        · simpa using hk
        · simpa using hk

/-- The `area` key survives one iteration's kwargs handling under any
configuration. -/
theorem tileKwargs_keeps_area (cfg : ProcCfg) (kw : Kwargs) (t : TileIndex)
    (h : (dictLookup kw "area").isSome) :
    (dictLookup (tileKwargs cfg kw t) "area").isSome := by
  rw [tileKwargs]
  split_ifs with hs
  · rw [dictLookup_update_self]; rfl
  · exact h

/-- C10: with `send_area_to_scene_processor` set, `process_by_scene` updates
the processor's `scene_processor_kwargs` dict in place with an `area` key
(part 1); the key persists across tile iterations and after
`process_by_scene` returns, under any later configuration `cfg2`, even one
with `send_area_to_scene_processor` off (part 2); and every subsequent
transform invocation in such a later run receives kwargs containing the
`area` key (part 3). -/
theorem kwargs_area_mutation (cfg cfg2 : ProcCfg) (c : Collab) :
    (∀ (t : TileIndex) (st : PState) (s0 : Stack),
      cfg.send_area_to_scene_processor = true →
      c.item_collection_for_pathrow t ≠ [] →
      c.get_stack (c.item_collection_for_pathrow t) t = Except.ok s0 →
      (processTile cfg c t st).1.kwargs = dictUpdate st.kwargs "area" (KwVal.area t)) ∧
    (∀ (tiles : List TileIndex) (st : PState),
      (dictLookup st.kwargs "area").isSome →
      (dictLookup (process_by_scene cfg2 c tiles st).1.kwargs "area").isSome) ∧
    (∀ (tiles : List TileIndex) (st : PState),
      (dictLookup st.kwargs "area").isSome →
      ∀ k ∈ (process_by_scene cfg2 c tiles st).1.calls,
        k ∈ st.calls ∨ (dictLookup k "area").isSome) := by
  have hstep : ∀ (t : TileIndex) (kw : Kwargs), (dictLookup kw "area").isSome →
      (dictLookup (tileRun cfg2 c t kw).kwargs "area").isSome := by
    intro t kw h
    rcases tileRun_kwargs_cases cfg2 c t kw with hc | hc
    · rw [hc]; exact h
    · rw [hc]; exact tileKwargs_keeps_area cfg2 kw t h
  refine ⟨?_, ?_, ?_⟩
  · intro t st s0 hsend h0 hs
    show (tileRun cfg c t st.kwargs).kwargs = _
    have hupd : tileKwargs cfg st.kwargs t = dictUpdate st.kwargs "area" (KwVal.area t) := by
      rw [tileKwargs, if_pos hsend]
    rw [tileRun_eq_of_stack cfg c t st.kwargs s0 h0 hs]
    split
    · exact hupd
    · exact hupd
    · split
      · exact hupd
      · exact hupd
  · intro tiles
    induction tiles with
    | nil => intro st h; exact h
    | cons t rest ih =>
      intro st h
      rw [process_by_scene]
      split
      · rename_i st1 heq
        apply ih
        have h1 : (processTile cfg2 c t st).1 = st1 := by rw [heq]
        have : st1.kwargs = (tileRun cfg2 c t st.kwargs).kwargs := by rw [← h1]; rfl
        rw [this]
        exact hstep t st.kwargs h
      · rename_i st1 e heq
        have h1 : (processTile cfg2 c t st).1 = st1 := by rw [heq]
        have : st1.kwargs = (tileRun cfg2 c t st.kwargs).kwargs := by rw [← h1]; rfl
        show (dictLookup st1.kwargs "area").isSome
        rw [this]
        exact hstep t st.kwargs h
  · intro tiles
    induction tiles with
    | nil =>
      intro st h k hk
      exact Or.inl hk
    | cons t rest ih =>
      intro st h k hk
      rw [process_by_scene] at hk
      have hcalls : ∀ k', k' ∈ st.calls ++ (tileRun cfg2 c t st.kwargs).calls →
          k' ∈ st.calls ∨ (dictLookup k' "area").isSome := by
        intro k' hk'
        rcases List.mem_append.1 hk' with hl | hr
        · exact Or.inl hl
        · right
          rw [tileRun_calls_eq cfg2 c t st.kwargs k' hr]
          exact tileKwargs_keeps_area cfg2 st.kwargs t h
      split at hk
      · rename_i st1 heq
        have h1 : (processTile cfg2 c t st).1 = st1 := by rw [heq]
        have hkw : st1.kwargs = (tileRun cfg2 c t st.kwargs).kwargs := by rw [← h1]; rfl
        have hcl : st1.calls = st.calls ++ (tileRun cfg2 c t st.kwargs).calls := by
          rw [← h1]; rfl
        rcases ih st1 (by rw [hkw]; exact hstep t st.kwargs h) k hk with hin | hsome
        · rw [hcl] at hin
          exact hcalls k hin
        · exact Or.inr hsome
      · rename_i st1 e heq
        have h1 : (processTile cfg2 c t st).1 = st1 := by rw [heq]
        have hcl : st1.calls = st.calls ++ (tileRun cfg2 c t st.kwargs).calls := by
          rw [← h1]; rfl
        simp only [hcl] at hk
        exact hcalls k hk

/-- A configuration that asks for the tile area to be sent to the transform. -/
def cfgB : ProcCfg :=
  { dataset_id := "ndvi", year := some "2020", send_area_to_scene_processor := true }

/-- Witness for C10: a run with the flag set inserts the `area` key, and a
later run with the flag off keeps it. -/
theorem kwargs_area_mutation_witness :
    (processTile cfgB collabNoResult [1, 2] ⟨[], [], []⟩).1.kwargs
      = dictUpdate [] "area" (KwVal.area [1, 2]) ∧
    (dictLookup (process_by_scene cfgA collabNoResult [[3, 4]]
        ⟨[("area", KwVal.area [1, 2])], [], []⟩).1.kwargs "area").isSome := by
  have h := kwargs_area_mutation cfgB cfgA collabNoResult
  exact ⟨h.1 [1, 2] ⟨[], [], []⟩ 0 rfl (by decide) rfl,
    h.2.1 [[3, 4]] ⟨[("area", KwVal.area [1, 2])], [], []⟩ (by decide)⟩

/-- The last snapshot of the upload loop: everything uploaded in order,
nothing left in local scratch. -/
theorem uploadSteps_getLast : ∀ (fs : List (List String)) (up : List (List String)),
    ((TPState.mk fs up) :: uploadSteps ⟨fs, up⟩ fs).getLast?
      = some ⟨[], up ++ fs.map remoteParts⟩
  | [], up => by simp [uploadSteps]
  | f :: rest, up => by
    rw [uploadSteps]
    simp only [List.erase_cons_head]
    rw [List.getLast?_cons_cons]
    rw [uploadSteps_getLast rest (up ++ [remoteParts f])]
    simp

/-- The remote path of a rendered tile keeps the `{z}/{x}/{y}.png` suffix of
its local path. -/
theorem remoteParts_localParts (cfg : ProcCfg) (n : TileNode) :
    remoteParts (localParts cfg n)
      = "tiles" :: ((prefixParts cfg).drop 2
          ++ [natStr n.z, natStr n.x, natStr n.y ++ ".png"]) := by
  cases hy : cfg.year with
  | none => simp [remoteParts, localParts, prefixParts, hy]
  | some y =>
    by_cases h0 : y = ""
    · simp [remoteParts, localParts, prefixParts, hy, h0]
    · simp [remoteParts, localParts, prefixParts, hy, h0]

/-- C9 (as amended): with `remake_mosaic` off, `create_tiles` renders the
pyramid for zoom levels 0 through 11 inclusive into local scratch — the
first snapshot holds every rendered tile file at once (rendering precedes
the upload loop, so the full pyramid does sit on local disk at that point) —
then uploads each file to a remote path preserving its zoom/x/y suffix and
deletes it, so that the final snapshot has an empty local scratch and every
file uploaded. -/
theorem create_tiles_pyramid (cfg : ProcCfg) (render : ℕ → List (ℕ × ℕ))
    (mosaicIsFile : Bool) :
    ∃ trace, create_tiles cfg render false mosaicIsFile = Except.ok trace ∧
      (∀ z, z ≤ 11 → render z ≠ [] → ∃ n ∈ renderedNodes render 11, n.z = z) ∧
      (∀ n ∈ renderedNodes render 11, n.z ≤ 11) ∧
      trace.head? = some ⟨(renderedNodes render 11).map (localParts cfg), []⟩ ∧
      trace.getLast?
        = some ⟨[], ((renderedNodes render 11).map (localParts cfg)).map remoteParts⟩ ∧
      (∀ n ∈ renderedNodes render 11, ∃ q,
        remoteParts (localParts cfg n)
          = q ++ [natStr n.z, natStr n.x, natStr n.y ++ ".png"]) := by
  refine ⟨_, rfl, ?_, ?_, rfl, ?_, ?_⟩
  · intro z hz hne
    match hr : render z with
    | [] => exact absurd hr hne
    | p :: ps =>
      refine ⟨⟨z, p.1, p.2⟩, ?_, rfl⟩
      rw [renderedNodes]
      apply List.mem_flatMap.2
      refine ⟨z, by simp [List.mem_range]; omega, ?_⟩
      rw [hr]
      exact List.mem_map.2 ⟨p, List.mem_cons_self p ps, rfl⟩
  · intro n hn
    rw [renderedNodes] at hn
    obtain ⟨z, hz, hn⟩ := List.mem_flatMap.1 hn
    obtain ⟨p, -, rfl⟩ := List.mem_map.1 hn
    have := List.mem_range.1 hz
    show z ≤ 11
    omega
  · exact uploadSteps_getLast ((renderedNodes render 11).map (localParts cfg)) []
  · intro n hn
    exact ⟨"tiles" :: (prefixParts cfg).drop 2, by rw [remoteParts_localParts]; simp⟩

/-- A renderer producing one map tile per zoom level. -/
def render0 : ℕ → List (ℕ × ℕ) := fun _ => [(0, 0)]

/-- Counterexample to C9 as stated: `gdal2tiles.main` renders the whole
pyramid before the upload loop runs, so the first snapshot of the run holds
all twelve rendered tile files on local disk at once — the generator does
hold the full rendered pyramid locally at that point of the run. -/
theorem create_tiles_holds_full_pyramid :
    ∃ rest, create_tiles cfgA render0 false false
      = Except.ok (TPState.mk ((renderedNodes render0 11).map (localParts cfgA)) [] :: rest)
      ∧ ((renderedNodes render0 11).map (localParts cfgA)).length = 12 :=
  ⟨_, rfl, by decide⟩

/-- Witness for the amended C9 at a concrete one-tile-per-zoom renderer. -/
theorem create_tiles_pyramid_witness :
    ∃ trace, create_tiles cfgA render0 false false = Except.ok trace ∧
      trace.getLast?
        = some ⟨[], ((renderedNodes render0 11).map (localParts cfgA)).map remoteParts⟩ := by
  obtain ⟨trace, h1, -, -, -, h5, -⟩ := create_tiles_pyramid cfgA render0 false
  exact ⟨trace, h1, h5⟩

/-- Relation between the kwargs dict at the same loop position of two runs
over the same tiles: equal, or (with `send_area_to_scene_processor` on) the
second differs only by a previously inserted `area` entry. -/
def KwRel (cfg : ProcCfg) (a b : Kwargs) : Prop :=
  b = a ∨ (cfg.send_area_to_scene_processor = true ∧ ∃ v, b = dictUpdate a "area" v)

/-- `KwRel` is reflexive. -/
theorem KwRel_refl (cfg : ProcCfg) (a : Kwargs) : KwRel cfg a a := Or.inl rfl

/-- `KwRel`-related dicts give the transform identical kwargs. -/
theorem tileKwargs_eq_of_KwRel (cfg : ProcCfg) {a b : Kwargs} (t : TileIndex)
    (h : KwRel cfg a b) : tileKwargs cfg b t = tileKwargs cfg a t := by
  rcases h with rfl | ⟨hsend, v, rfl⟩
  · rfl
  · rw [tileKwargs, tileKwargs, if_pos hsend, if_pos hsend, dictUpdate_collapse]

/-- One loop iteration leaves the kwargs dict `KwRel`-related to its input. -/
theorem KwRel_tileRun (cfg : ProcCfg) (c : Collab) (t : TileIndex) (a : Kwargs) :
    KwRel cfg a (tileRun cfg c t a).kwargs := by
  rcases tileRun_kwargs_cases cfg c t a with hc | hc
  · exact Or.inl hc
  · rw [hc, tileKwargs]
    split_ifs with hs
    · exact Or.inr ⟨hs, KwVal.area t, rfl⟩
    · exact Or.inl rfl

/-- `KwRel` is transitive. -/
theorem KwRel_trans (cfg : ProcCfg) {a b d : Kwargs} (h1 : KwRel cfg a b)
    (h2 : KwRel cfg b d) : KwRel cfg a d := by
  rcases h1 with rfl | ⟨hs1, v1, rfl⟩
  · exact h2
  · rcases h2 with rfl | ⟨hs2, v2, rfl⟩
    · exact Or.inr ⟨hs1, v1, rfl⟩
    · exact Or.inr ⟨hs2, v2, by rw [dictUpdate_collapse]⟩

/-- The loop body never reads the overwrite flag (only the write in
`processTile` does). -/
theorem tileRun_overwrite_irrel (cfg : ProcCfg) (c : Collab) (t : TileIndex)
    (kw : Kwargs) :
    tileRun { cfg with overwrite := false } c t kw = tileRun cfg c t kw := rfl

/-- Two `KwRel`-related runs perform the same iteration: same writes, same
exception, and `KwRel`-related kwargs afterwards. -/
theorem tileRun_det (cfg : ProcCfg) (c : Collab) (t : TileIndex) {a b : Kwargs}
    (hkw : KwRel cfg a b) :
    (tileRun cfg c t b).items = (tileRun cfg c t a).items ∧
    (tileRun cfg c t b).err = (tileRun cfg c t a).err ∧
    KwRel cfg (tileRun cfg c t a).kwargs (tileRun cfg c t b).kwargs := by
  by_cases h0 : c.item_collection_for_pathrow t = []
  · rw [tileRun_eq_of_empty cfg c t a h0, tileRun_eq_of_empty cfg c t b h0]
    exact ⟨rfl, rfl, hkw⟩
  · cases hg : c.get_stack (c.item_collection_for_pathrow t) t with
    | error e =>
      rw [tileRun_eq_of_stackError cfg c t a e h0 hg,
        tileRun_eq_of_stackError cfg c t b e h0 hg]
      exact ⟨rfl, rfl, hkw⟩
    | ok s0 =>
      rw [tileRun_eq_of_stack cfg c t a s0 h0 hg, tileRun_eq_of_stack cfg c t b s0 h0 hg,
        tileKwargs_eq_of_KwRel cfg t hkw]
      refine ⟨rfl, rfl, ?_⟩
      exact KwRel_refl cfg _

/-- Writing never removes a blob. -/
theorem blobLookup_write_mono {s : Storage} {p : String} (q : String) (a : Artifact)
    (o : Bool) (h : (blobLookup s p).isSome) :
    (blobLookup (write_to_blob_storage s q a o) p).isSome := by
  rw [write_to_blob_storage]
  split_ifs with hc
  · exact h
  · rw [blobLookup]
    split_ifs with hq
    · rfl
    · exact h

/-- A blob survives any sequence of writes. -/
theorem blobLookup_foldl_write_mono (items : List (String × Artifact)) (o : Bool) :
    ∀ (s : Storage) (p : String), (blobLookup s p).isSome →
    (blobLookup (items.foldl (fun s' pa => write_to_blob_storage s' pa.1 pa.2 o) s) p).isSome := by
  induction items with
  | nil => intro s p h; exact h
  | cons pa rest ih =>
    intro s p h
    exact ih _ p (blobLookup_write_mono pa.1 pa.2 o h)

/-- After a write the destination exists. -/
theorem blobLookup_write_self (s : Storage) (p : String) (a : Artifact) (o : Bool) :
    (blobLookup (write_to_blob_storage s p a o) p).isSome := by
  rw [write_to_blob_storage]
  split_ifs with hc
  · exact hc.2
  · rw [blobLookup, if_pos rfl]
    rfl

/-- After a sequence of writes every written destination exists. -/
theorem blobLookup_foldl_write_covers (items : List (String × Artifact)) (o : Bool) :
    ∀ (s : Storage) (pa : String × Artifact), pa ∈ items →
    (blobLookup (items.foldl (fun s' q => write_to_blob_storage s' q.1 q.2 o) s) pa.1).isSome := by
  induction items with
  | nil => intro s pa h; cases h
  | cons q rest ih =>
    intro s pa h
    rcases List.mem_cons.1 h with rfl | h'
    · exact blobLookup_foldl_write_mono rest o _ pa.1 (blobLookup_write_self s pa.1 pa.2 o)
    · exact ih _ pa h'

/-- With overwrite off, a write to an existing destination is a no-op. -/
theorem write_to_blob_storage_noop (s : Storage) (p : String) (a : Artifact)
    (h : (blobLookup s p).isSome) : write_to_blob_storage s p a false = s := by
  rw [write_to_blob_storage, if_pos ⟨rfl, h⟩]

/-- With overwrite off, a sequence of writes to existing destinations is a
no-op. -/
theorem foldl_write_noop (items : List (String × Artifact)) :
    ∀ (s : Storage), (∀ pa ∈ items, (blobLookup s pa.1).isSome) →
    items.foldl (fun s' pa => write_to_blob_storage s' pa.1 pa.2 false) s = s := by
  induction items with
  | nil => intro s _; rfl
  | cons q rest ih =>
    intro s h
    have hq := h q (List.mem_cons_self q rest)
    rw [List.foldl_cons, write_to_blob_storage_noop s q.1 q.2 hq]
    exact ih s (fun pa hpa => h pa (List.mem_cons_of_mem q hpa))

/-- The storage only grows along a pipeline run. -/
theorem run_storage_mono (cfg : ProcCfg) (c : Collab) :
    ∀ (tiles : List TileIndex) (st : PState) (p : String),
      (blobLookup st.storage p).isSome →
      (blobLookup (process_by_scene cfg c tiles st).1.storage p).isSome := by
  intro tiles
  induction tiles with
  | nil => intro st p h; exact h
  | cons t rest ih =>
    intro st p h
    have hmono : (blobLookup (processTile cfg c t st).1.storage p).isSome :=
      blobLookup_foldl_write_mono (tileRun cfg c t st.kwargs).items cfg.overwrite
        st.storage p h
    rw [process_by_scene]
    split
    · rename_i st1 heq
      apply ih
      have h1 : (processTile cfg c t st).1 = st1 := by rw [heq]
      rw [← h1]
      exact hmono
    · rename_i st1 e heq
      have h1 : (processTile cfg c t st).1 = st1 := by rw [heq]
      show (blobLookup st1.storage p).isSome
      rw [← h1]
      exact hmono

/-- The kwargs dict after a run is `KwRel`-related to the one before it. -/
theorem run_KwRel (cfg : ProcCfg) (c : Collab) :
    ∀ (tiles : List TileIndex) (st : PState),
      KwRel cfg st.kwargs (process_by_scene cfg c tiles st).1.kwargs := by
  intro tiles
  induction tiles with
  | nil => intro st; exact KwRel_refl _ _
  | cons t rest ih =>
    intro st
    rw [process_by_scene]
    split
    · rename_i st1 heq
      have h1 : (processTile cfg c t st).1 = st1 := by rw [heq]
      have hstep : KwRel cfg st.kwargs st1.kwargs := by
        rw [← h1]
        exact KwRel_tileRun cfg c t st.kwargs
      exact KwRel_trans cfg hstep (ih st1)
    · rename_i st1 e heq
      have h1 : (processTile cfg c t st).1 = st1 := by rw [heq]
      show KwRel cfg st.kwargs st1.kwargs
      rw [← h1]
      exact KwRel_tileRun cfg c t st.kwargs

/-- Re-running the pipeline with overwrite off, from the final state of a
completed run over the same tiles, leaves the storage exactly as it was:
every write of the second run targets an existing destination and is a
no-op. -/
theorem run2_fixed (cfg : ProcCfg) (c : Collab) :
    ∀ (tiles : List TileIndex) (x y stF : PState),
      process_by_scene cfg c tiles x = (stF, none) →
      KwRel cfg x.kwargs y.kwargs →
      y.storage = stF.storage →
      (process_by_scene { cfg with overwrite := false } c tiles y).1.storage
        = stF.storage := by
  intro tiles
  induction tiles with
  | nil =>
    intro x y stF h hkw hys
    rw [process_by_scene]
    exact hys
  | cons t rest ih =>
    intro x y stF h hkw hys
    rw [process_by_scene] at h
    split at h
    · rename_i x1 heq
      have h1 : (processTile cfg c t x).1 = x1 := by rw [heq]
      have herr1 : (tileRun cfg c t x.kwargs).err = none := by
        have h2 : (processTile cfg c t x).2 = none := by rw [heq]
        exact h2
      have hdet := tileRun_det cfg c t hkw
      have hpt2snd : (processTile { cfg with overwrite := false } c t y).2 = none := by
        show (tileRun { cfg with overwrite := false } c t y.kwargs).err = none
        rw [tileRun_overwrite_irrel, hdet.2.1, herr1]
      rw [process_by_scene]
      rw [show processTile { cfg with overwrite := false } c t y
          = ((processTile { cfg with overwrite := false } c t y).1, none) from by
        rw [← hpt2snd]]
      apply ih x1 ((processTile { cfg with overwrite := false } c t y).1) stF h
      · show KwRel cfg x1.kwargs
          (tileRun { cfg with overwrite := false } c t y.kwargs).kwargs
        rw [tileRun_overwrite_irrel, ← h1]
        exact hdet.2.2
      · show ((tileRun { cfg with overwrite := false } c t y.kwargs).items.foldl
          (fun s pa => write_to_blob_storage s pa.1 pa.2 false) y.storage)
          = stF.storage
        rw [tileRun_overwrite_irrel, hdet.1, hys]
        apply foldl_write_noop
        intro pa hpa
        have hcov : (blobLookup x1.storage pa.1).isSome := by
          rw [← h1]
          show (blobLookup ((tileRun cfg c t x.kwargs).items.foldl
            (fun s q => write_to_blob_storage s q.1 q.2 cfg.overwrite) x.storage)
            pa.1).isSome
          exact blobLookup_foldl_write_covers _ cfg.overwrite x.storage pa hpa
        have hmem := run_storage_mono cfg c rest x1 pa.1 hcov
        rw [h] at hmem
        exact hmem
    · rename_i x1 e heq
      exact absurd (congrArg Prod.snd h) (by simp)

/-- C6: running `process_by_scene` a second time with overwrite off, over
the same inputs and from the state the first completed run produced, leaves
the blob storage exactly as the first run left it — and each individual
`write_to_blob_storage` call with overwrite off whose destination already
exists is a no-op, leaving the destination untouched. -/
theorem process_by_scene_idempotent (cfg : ProcCfg) (c : Collab)
    (tiles : List TileIndex) (st0 st1 : PState)
    (h : process_by_scene cfg c tiles st0 = (st1, none)) :
    (process_by_scene { cfg with overwrite := false } c tiles st1).1.storage
      = st1.storage ∧
    ∀ (s : Storage) (p : String) (a : Artifact),
      (blobLookup s p).isSome → write_to_blob_storage s p a false = s := by
  refine ⟨?_, fun s p a hp => write_to_blob_storage_noop s p a hp⟩
  apply run2_fixed cfg c tiles st0 st1 st1 h ?_ rfl
  have hk := run_KwRel cfg c tiles st0
  rw [h] at hk
  exact hk

/-- Witness for C6: a completed one-tile run, re-run with overwrite off,
leaves the storage unchanged. -/
theorem process_by_scene_idempotent_witness :
    (process_by_scene { cfgA with overwrite := false } collabBoom [[3, 4]]
        ⟨[], [("ndvi/2020/ndvi_2020_3_4.tif", Artifact.whole ⟨none, ["ndvi"]⟩)],
          [[]]⟩).1.storage
      = [("ndvi/2020/ndvi_2020_3_4.tif", Artifact.whole ⟨none, ["ndvi"]⟩)] :=
  (process_by_scene_idempotent cfgA collabBoom [[3, 4]] ⟨[], [], []⟩
    ⟨[], [("ndvi/2020/ndvi_2020_3_4.tif", Artifact.whole ⟨none, ["ndvi"]⟩)], [[]]⟩
    (by decide)).1
